import Mathlib

/-!
Verification development for the `CustomerMapper` repository: a CSV → JSON →
XML customer-record mapper (`Mappers/customer_mapper.py`) plus a driver script
(`process_customers.py`).

The Python code is shallowly embedded below:

* a source record (a Python `dict` mapping field names to string values) is an
  association list `Record`;
* an `xml.etree.ElementTree` element is the inductive `Elem` (tag, attributes,
  text, child elements);
* `CustomerMapper.json_to_xml` is `buildRoot` (tree construction) followed by
  `serializeDoc` (the `ET.tostring` → `minidom.parseString` → `toprettyxml`
  pipeline, modelled by a pretty printer that escapes text with `minidom`'s
  `_write_data` rules);
* the driver's CSV row loop and its side effects are `readLoop` and
  `csv_to_json_and_xml`, which return an explicit trace of effects instead
  of performing I/O.
-/

/-- A source record: a Python dict from field name to string value, as
produced by `csv.DictReader` (keys are unique in a real dict; lookup takes
the first binding). -/
structure Record where
  fields : List (String × String)
deriving DecidableEq

/-- `d.get(k)` / `d[k]` lookup: `none` when the key is absent. -/
def Record.get? (r : Record) (k : String) : Option String :=
  (r.fields.find? (fun p => p.1 == k)).map Prod.snd

/-- Python `d.get(k, default)`: the default is used only when the key is
absent. -/
def Record.getD (r : Record) (k d : String) : String :=
  (r.get? k).getD d

/-- Python truthiness of `d.get(k)` for string-valued dicts: a present,
non-empty value is truthy; an absent key (`None`) and the empty string are
falsy. -/
def Record.truthy (r : Record) (k : String) : Bool :=
  match r.get? k with
  | some s => !(s == "")
  | none => false

/-- Characters removed by Python `str.strip()`: the Unicode whitespace of
`str.isspace()` (CPython 3.11 / Unicode 14): U+0009–U+000D, U+001C–U+001F,
space, NEL U+0085, NBSP U+00A0, U+1680, U+2000–U+200A, U+2028, U+2029,
U+202F, U+205F and U+3000. -/
def pySpace (c : Char) : Bool :=
  (9 ≤ c.val && c.val ≤ 13) || (28 ≤ c.val && c.val ≤ 31) || c.val = 32 ||
  c.val = 0x85 || c.val = 0xa0 || c.val = 0x1680 ||
  (0x2000 ≤ c.val && c.val ≤ 0x200a) || c.val = 0x2028 || c.val = 0x2029 ||
  c.val = 0x202f || c.val = 0x205f || c.val = 0x3000

/-- The whitespace `int()` skips around the number: the `str.strip()` set
minus the separator controls U+001C–U+001F, which `int()` rejects (checked
against CPython 3.11). -/
def pyIntSpace (c : Char) : Bool :=
  pySpace c && !(28 ≤ c.val && c.val ≤ 31)

/-- Python `str.strip()` on the underlying character list. -/
def pyStripList (l : List Char) : List Char :=
  ((l.dropWhile pySpace).reverse.dropWhile pySpace).reverse

/-- Python `str.strip()`. -/
def pyStrip (s : String) : String :=
  ⟨pyStripList s.data⟩

/-- Python `" ".join(l)`. -/
def pyJoinSpace : List String → String
  | [] => ""
  | [s] => s
  | s :: rest => s ++ " " ++ pyJoinSpace rest

/-- Python `filter(None, l)` on a list of strings: drop falsy (empty)
elements. -/
def filterTruthy (l : List String) : List String :=
  l.filter (fun s => !(s == ""))

/-- An `xml.etree.ElementTree` element: tag, attributes in insertion order,
optional text, child elements in insertion order. -/
inductive Elem where
  | mk (tag : String) (attrs : List (String × String)) (text : Option String)
      (children : List Elem)

/-- The element's tag. -/
def Elem.tag : Elem → String
  | .mk t _ _ _ => t

/-- The element's attribute list. -/
def Elem.attrs : Elem → List (String × String)
  | .mk _ a _ _ => a

/-- The element's text (text appearing before any child element). -/
def Elem.text : Elem → Option String
  | .mk _ _ t _ => t

/-- The element's child elements. -/
def Elem.children : Elem → List Elem
  | .mk _ _ _ c => c

/-- `element.find(tag)`: first child element with the given tag. -/
def findChild (e : Elem) (t : String) : Option Elem :=
  e.children.find? (fun c => c.tag == t)

/-- Text of the first child element with the given tag
(`element.find(tag).text`). -/
def childText (e : Elem) (t : String) : Option String :=
  (findChild e t).bind Elem.text

/-- `element.get(name) is not None`: whether the attribute is present. -/
def hasAttr (e : Elem) (n : String) : Bool :=
  (e.attrs.find? (fun p => p.1 == n)).isSome

/-- The `ContactName` string computed by the mapper:
`" ".join(filter(None, [d.get("First Name", ""), d.get("Last Name", "")])).strip()`. -/
def contactNameStr (r : Record) : String :=
  pyStrip (pyJoinSpace (filterTruthy [r.getD "First Name" "", r.getD "Last Name" ""]))

/-- The `FullAddress` subtree built for one record. -/
def fullAddressElem (r : Record) : Elem :=
  .mk "FullAddress" [] none
    [ .mk "Address" [] (some "N/A") [],
      .mk "City" [] (some (r.getD "City" "N/A")) [],
      .mk "Region" [] (some "N/A") [],
      .mk "PostalCode" [] (some (toString (0 : Nat))) [],
      .mk "Country" [] (some (r.getD "Country" "N/A")) [] ]

/-- The `Customer` element built for one record by
`CustomerMapper.json_to_xml`'s loop body. -/
def mapCustomer (r : Record) : Elem :=
  .mk "Customer"
    (if r.truthy "Customer Id" then
      [("CustomerID", (r.get? "Customer Id").getD "")]
     else [])
    none
    ([ .mk "CompanyName" [] (some (r.getD "Company" "N/A")) [],
       .mk "ContactName" [] (some (if contactNameStr r = "" then "N/A" else contactNameStr r)) [],
       .mk "ContactTitle" [] (some "N/A") [],
       .mk "Phone" [] (some (r.getD "Phone 1" "N/A")) [] ]
     ++ (if r.truthy "Phone 2" then
          [.mk "Fax" [] (some ((r.get? "Phone 2").getD "")) []]
         else [])
     ++ [fullAddressElem r])

/-- The `Customers` root element built by `CustomerMapper.json_to_xml`
before serialization. -/
def buildRoot (cs : List Record) : Elem :=
  .mk "Customers" [] none (cs.map mapCustomer)

/-- Text of an element of the `FullAddress` subtree of a mapped record. -/
def addrText (r : Record) (t : String) : Option String :=
  (findChild (mapCustomer r) "FullAddress").bind (fun fa => childText fa t)

/-- `xml.dom.minidom`'s `_write_data` escaping of character data and attribute
values, applied character by character (`&` → `&amp;`, `<` → `&lt;`,
`"` → `&quot;`, `>` → `&gt;`; the sequential `str.replace` chain in minidom
replaces `&` first, so it acts exactly per character). -/
def escChar (c : Char) : List Char :=
  if c = '&' then "&amp;".data
  else if c = '<' then "&lt;".data
  else if c = '"' then "&quot;".data
  else if c = '>' then "&gt;".data
  else [c]

/-- `_write_data` escaping on a character list. -/
def escList : List Char → List Char
  | [] => []
  | c :: rest => escChar c ++ escList rest

/-- `_write_data` escaping on a string. -/
def escapeData (s : String) : String :=
  ⟨escList s.data⟩

/-- A conformant XML parser's decoding of character data: predefined entity
references become the characters they denote; everything else is literal. -/
def unescList : List Char → List Char
  | [] => []
  | '&' :: 'a' :: 'm' :: 'p' :: ';' :: r2 => '&' :: unescList r2
  | '&' :: 'l' :: 't' :: ';' :: r2 => '<' :: unescList r2
  | '&' :: 'g' :: 't' :: ';' :: r2 => '>' :: unescList r2
  | '&' :: 'q' :: 'u' :: 'o' :: 't' :: ';' :: r2 => '"' :: unescList r2
  | c :: rest => c :: unescList rest

/-- End-of-line normalization a conformant XML parser performs on its input
before parsing (XML 1.0 §2.11): `\r\n` and bare `\r` both become `\n`.
`expat`, and hence the `minidom.parseString` step of the pipeline, does
this. -/
def eolNorm : List Char → List Char
  | [] => []
  | '\r' :: '\n' :: rest => '\n' :: eolNorm rest
  | '\r' :: rest => '\n' :: eolNorm rest
  | c :: rest => c :: eolNorm rest

/-- End-of-line normalization on strings. -/
def eolNormStr (s : String) : String :=
  ⟨eolNorm s.data⟩

/-- A conformant XML parser's reading of serialized character data: line
breaks normalized per XML 1.0 §2.11, then entity references decoded. -/
def unescapeData (s : String) : String :=
  ⟨unescList (eolNorm s.data)⟩

/-- A character allowed in an XML 1.0 document (`Char` production). `expat`,
and hence `minidom.parseString`, rejects a document containing any other
character. Lean `Char` already excludes surrogates. -/
def validXmlChar (c : Char) : Bool :=
  c.val = 9 || c.val = 10 || c.val = 13 ||
  (32 ≤ c.val && c.val ≤ 0xD7FF) ||
  (0xE000 ≤ c.val && c.val ≤ 0xFFFD) ||
  (0x10000 ≤ c.val && c.val ≤ 0x10FFFF)

/-- All characters of the string are XML-representable. -/
def validStr (s : String) : Bool :=
  s.data.all validXmlChar

/-- All field values of a record are XML-representable strings. -/
def recValid (r : Record) : Bool :=
  r.fields.all (fun p => validStr p.2)

mutual

/-- All attribute values and text of the element tree are XML-representable:
exactly the condition under which `minidom.parseString` accepts the
`ET.tostring` serialization of the tree (tags here are fixed literals). -/
def validElem : Elem → Bool
  | .mk _ attrs text children =>
    attrs.all (fun p => validStr p.2) &&
    (match text with
     | some t => validStr t
     | none => true) &&
    validElems children

/-- `validElem` over a list of elements. -/
def validElems : List Elem → Bool
  | [] => true
  | e :: es => validElem e && validElems es

end

/-- Serialized attribute list, per `minidom`'s `Element.writexml`:
` name="value"` with `_write_data`-escaped values, in insertion order. -/
def attrsString (attrs : List (String × String)) : String :=
  match attrs with
  | [] => ""
  | (n, v) :: rest => " " ++ n ++ "=\"" ++ escapeData v ++ "\"" ++ attrsString rest

mutual

/-- `minidom`'s pretty `Element.writexml` (as called by
`toprettyxml(indent="  ")`) on the tree parsed back from `ET.tostring`
output: a childless, textless element is self-closing; an element whose only
child node is text is written on one line; otherwise each child node goes on
its own line, indented two further spaces. `ET.tostring` emits text only
when it is truthy, so empty text is treated as absent; parsing the
`ET.tostring` output already end-of-line-normalized the text held in the
`minidom` tree (attribute values are exempt: `ET` writes `\r` in them as a
character reference, which normalization does not touch). -/
def writexml (indent : String) : Elem → String
  | .mk tag attrs text children =>
    let headStr := indent ++ "<" ++ tag ++ attrsString attrs
    let txt := (text.getD "")
    if txt = "" && children.isEmpty then
      headStr ++ "/>\n"
    else if children.isEmpty then
      headStr ++ ">" ++ escapeData (eolNormStr txt) ++ "</" ++ tag ++ ">\n"
    else
      headStr ++ ">\n" ++
      (if txt = "" then "" else indent ++ "  " ++ escapeData (eolNormStr txt) ++ "\n") ++
      writexmlList (indent ++ "  ") children ++
      indent ++ "</" ++ tag ++ ">\n"

/-- `writexml` over a list of sibling elements. -/
def writexmlList (indent : String) : List Elem → String
  | [] => ""
  | e :: es => writexml indent e ++ writexmlList indent es

end

/-- `minidom.Document.writexml` via `toprettyxml(indent="  ")`: the XML
declaration, then the root element. -/
def serializeDoc (root : Elem) : String :=
  "<?xml version=\"1.0\" ?>\n" ++ writexml "" root

/-- `CustomerMapper.json_to_xml` on input whose serialization parses: the
pretty-printed document string. -/
def json_to_xml (cs : List Record) : String :=
  serializeDoc (buildRoot cs)

/-- `CustomerMapper.json_to_xml` as the fallible pipeline it actually is:
`ET.tostring` emits any character of the element texts verbatim (escaping
only markup characters), and `minidom.parseString` then raises `ExpatError`
if the document contains an XML-invalid character. Everything else in the
method is non-raising dict/tree manipulation. -/
def jsonToXmlE (cs : List Record) : Except String String :=
  if validElem (buildRoot cs) then .ok (json_to_xml cs)
  else .error "ExpatError: not well-formed (invalid token)"

/-! ### Driver: `process_customers.py` -/

/-- A Python value stored in a row dict after the driver's type coercion:
the original string, or the coerced integer for the `Index` field. -/
inductive PyVal where
  | vs (s : String)
  | vi (n : Int)
deriving DecidableEq

/-- A row after the driver's `row['Index'] = int(row['Index'])` coercion. -/
def CRow := List (String × PyVal)

/-- First codepoints of the 66 aligned blocks of ten Unicode 14 decimal
digits (category `Nd`); the k-th character of each block has decimal value
k. CPython's `int()` accepts exactly these characters as digits. -/
def ndBases : List Nat :=
  [0x30, 0x660, 0x6f0, 0x7c0, 0x966, 0x9e6, 0xa66, 0xae6, 0xb66, 0xbe6,
   0xc66, 0xce6, 0xd66, 0xde6, 0xe50, 0xed0, 0xf20, 0x1040, 0x1090, 0x17e0,
   0x1810, 0x1946, 0x19d0, 0x1a80, 0x1a90, 0x1b50, 0x1bb0, 0x1c40, 0x1c50,
   0xa620, 0xa8d0, 0xa900, 0xa9d0, 0xa9f0, 0xaa50, 0xabf0, 0xff10, 0x104a0,
   0x10d30, 0x11066, 0x110f0, 0x11136, 0x111d0, 0x112f0, 0x11450, 0x114d0,
   0x11650, 0x116c0, 0x11730, 0x118e0, 0x11950, 0x11c50, 0x11d50, 0x11da0,
   0x16a60, 0x16ac0, 0x16b50, 0x1d7ce, 0x1d7d8, 0x1d7e2, 0x1d7ec, 0x1d7f6,
   0x1e140, 0x1e2f0, 0x1e950, 0x1fbf0]

/-- The decimal value of a character `int()` accepts as a digit (any Unicode
`Nd` digit, e.g. `int("٥") = 5`, `int("५३") = 53`), `none` otherwise. -/
def pyDigit? (c : Char) : Option Nat :=
  (ndBases.find? (fun b => b ≤ c.toNat && c.toNat ≤ b + 9)).map
    (fun b => c.toNat - b)

/-- `int()` applied to a run of digits possibly separated by single
underscores (`digit (underscore? digit)*`), per the Python integer-literal
grammar, with Unicode decimal digits accepted. -/
def digitsOk : List Char → Bool
  | [] => false
  | [c] => (pyDigit? c).isSome
  | c :: '_' :: rest => (pyDigit? c).isSome && digitsOk rest
  | c :: rest => (pyDigit? c).isSome && digitsOk rest

/-- Numeric value of a digit run, ignoring underscores, each digit
contributing its Unicode decimal value. -/
def digitsVal (l : List Char) : Nat :=
  (l.filter (fun c => !(c == '_'))).foldl (fun n c => 10 * n + (pyDigit? c).getD 0) 0

/-- `int()`'s surrounding-whitespace stripping. -/
def pyIntStripList (l : List Char) : List Char :=
  ((l.dropWhile pyIntSpace).reverse.dropWhile pyIntSpace).reverse

/-- Python `int(s)` for a string argument: surrounding whitespace stripped,
one optional ASCII sign, then Unicode decimal digits (underscores allowed
between digits); `none` models the `ValueError`. -/
def pyInt (s : String) : Option Int :=
  match pyIntStripList s.data with
  | '+' :: rest => if digitsOk rest then some (digitsVal rest) else none
  | '-' :: rest => if digitsOk rest then some (-(digitsVal rest : Int)) else none
  | l => if digitsOk l then some (digitsVal l) else none

/-- `row['Index'] = int(row['Index'])`: every field keeps its string value
except `Index`, which becomes the coerced integer. -/
def coerceRow (r : Record) (n : Int) : CRow :=
  r.fields.map (fun p => if p.1 = "Index" then (p.1, PyVal.vi n) else (p.1, PyVal.vs p.2))

/-- The driver's CSV row loop: for each row in order, read `row['Index']`
(a missing key raises `KeyError`, which escapes the inner `except
ValueError` and aborts the read), try `int` on it, on `ValueError` warn and
skip the row, otherwise append the coerced row. Returns the collected rows
(or the uncaught error) together with the rows warned about. -/
def readLoop : List Record → Except String (List CRow) × List Record
  | [] => (.ok [], [])
  | r :: rest =>
    match r.get? "Index" with
    | none => (.error "KeyError: Index", [])
    | some s =>
      match pyInt s with
      | none =>
        let (res, ws) := readLoop rest
        (res, r :: ws)
      | some n =>
        let (res, ws) := readLoop rest
        (res.map (fun tail => coerceRow r n :: tail), ws)

/-- Spec-side description of the surviving rows: rows whose `Index` parses,
in order, with `Index` coerced. -/
def surviving (rows : List Record) : List CRow :=
  rows.filterMap (fun r =>
    (r.get? "Index").bind (fun s => (pyInt s).map (coerceRow r)))

/-- Spec-side description of the skipped (warned-about) rows: rows whose
`Index` is present but not integer-parseable. -/
def skippedRows (rows : List Record) : List Record :=
  rows.filter (fun r =>
    match r.get? "Index" with
    | some s => (pyInt s).isNone
    | none => false)

/-- `str(v)` for a coerced row value, used when the mapper receives the
driver's rows (only the unused `Index` field is ever an integer). -/
def pyValStr : PyVal → String
  | .vs s => s
  | .vi n => toString n

/-- View of a coerced row as a string-valued record, for feeding the
mapper. -/
def crowRecord (c : CRow) : Record :=
  ⟨c.map (fun p => (p.1, pyValStr p.2))⟩

/-- One observable side effect of the driver. `warnIndex row` is the warning
print `Warning: Could not convert Index '...' to int for row: ...` emitted
for a skipped row, identified by the row it reports (the exact f-string
rendering of the row is not modelled). -/
inductive Eff where
  | printMsg (s : String)
  | warnIndex (row : Record)
  | makeDir (d : String)
  | writeJson (path : String) (rows : List CRow)
  | writeXml (path : String) (content : String)

/-- Whether an effect is console output (as opposed to a filesystem
effect). -/
def Eff.isPrint : Eff → Bool
  | .printMsg _ => true
  | .warnIndex _ => true
  | _ => false

/-- Result of opening and reading the CSV file, the only genuinely external
input of `csv_to_json_and_xml`. -/
inductive CsvRead where
  | notFound
  | readError (e : String)
  | rows (rs : List Record)

/-- `csv_to_json_and_xml(csv_filepath, json_schema_filepath, output_dir)` as
a function from its external inputs (CSV read outcome, whether the output
directory exists, the formatted timestamp) to the trace of its side effects.
File writes are assumed to succeed (their failure branches only print and
return). -/
def csv_to_json_and_xml (csvRead : CsvRead) (dirExists : Bool)
    (timestamp csvPath outputDir : String) : List Eff :=
  match csvRead with
  | .notFound => [.printMsg ("Error: CSV file not found at " ++ csvPath)]
  | .readError e => [.printMsg ("Error reading CSV file: " ++ e)]
  | .rows rs =>
    match readLoop rs with
    | (.error e, ws) => ws.map Eff.warnIndex ++ [.printMsg ("Error reading CSV file: " ++ e)]
    | (.ok customers_list, ws) =>
      ws.map Eff.warnIndex ++
      (if customers_list.isEmpty then
        [.printMsg "No data processed from CSV."]
       else
        (if dirExists then []
         else [.makeDir outputDir, .printMsg ("Created directory: " ++ outputDir)]) ++
        (let jsonPath := outputDir ++ "/source_customers_" ++ timestamp ++ ".json"
         [.writeJson jsonPath customers_list,
          .printMsg ("Successfully created source JSON: " ++ jsonPath)]) ++
        (let xmlPath := outputDir ++ "/target_customers_" ++ timestamp ++ ".xml"
         match jsonToXmlE (customers_list.map crowRecord) with
         | .ok xml =>
           [.writeXml xmlPath xml,
            .printMsg ("Successfully created target XML: " ++ xmlPath)]
         | .error e => [.printMsg ("Error during XML mapping or writing: " ++ e)]))

/-! ### Helper lemmas -/

theorem unesc_escChar (c : Char) (r : List Char) :
    unescList (escChar c ++ r) = c :: unescList r := by
  by_cases h1 : c = '&'
  · subst h1; exact unescList.eq_2 r
  · by_cases h2 : c = '<'
    · subst h2; exact unescList.eq_3 r
    · by_cases h3 : c = '"'
      · subst h3; exact unescList.eq_5 r
      · by_cases h4 : c = '>'
        · subst h4; exact unescList.eq_4 r
        · simp only [escChar, h1, h2, h3, h4, if_false, List.singleton_append]
          exact unescList.eq_6 c r (fun _ hc _ => h1 hc) (fun _ hc _ => h1 hc)
            (fun _ hc _ => h1 hc) (fun _ hc _ => h1 hc)

theorem unesc_esc (l : List Char) : unescList (escList l) = l := by
  induction l with
  | nil => rfl
  | cons c rest ih => rw [escList, unesc_escChar, ih]

theorem unescList_cons_of_ne (c : Char) (h : c ≠ '&') (X : List Char) :
    unescList (c :: X) = c :: unescList X :=
  unescList.eq_6 c X (fun _ hc _ => h hc) (fun _ hc _ => h hc)
    (fun _ hc _ => h hc) (fun _ hc _ => h hc)

theorem escChar_shape (c : Char) : escChar c = [c] ∨ ∃ t, escChar c = '&' :: t := by
  unfold escChar
  by_cases h1 : c = '&'
  · subst h1; exact Or.inr ⟨"amp;".data, by simp⟩
  · by_cases h2 : c = '<'
    · subst h2; exact Or.inr ⟨"lt;".data, by simp⟩
    · by_cases h3 : c = '"'
      · subst h3; exact Or.inr ⟨"quot;".data, by simp [h1, h2]⟩
      · by_cases h4 : c = '>'
        · subst h4; exact Or.inr ⟨"gt;".data, by simp [h1, h2, h3]⟩
        · exact Or.inl (by simp [h1, h2, h3, h4])

theorem escList_not_lf_head {rest : List Char}
    (h : ∀ r2, rest = '\n' :: r2 → False) :
    ∀ r2, escList rest = '\n' :: r2 → False := by
  intro r2 he
  cases rest with
  | nil => simp [escList] at he
  | cons c2 t2 =>
    rw [escList] at he
    rcases escChar_shape c2 with hsh | ⟨t, hsh⟩
    · rw [hsh, List.singleton_append] at he
      injection he with hc2 hrest
      exact h t2 (by rw [hc2])
    · rw [hsh, List.cons_append] at he
      injection he with hamp hrest
      exact absurd hamp (by decide)

theorem eolNorm_append_no_cr {a : List Char} (b : List Char)
    (h : ∀ x ∈ a, x ≠ '\r') : eolNorm (a ++ b) = a ++ eolNorm b := by
  induction a with
  | nil => rfl
  | cons x t ih =>
    have hx : x ≠ '\r' := h x (List.mem_cons_self ..)
    rw [List.cons_append, eolNorm.eq_4 x (t ++ b) (fun _ hc _ => hx hc) hx,
      ih (fun y hy => h y (List.mem_cons_of_mem _ hy)), List.cons_append]

theorem escChar_no_cr (c : Char) (hc : c ≠ '\r') : ∀ x ∈ escChar c, x ≠ '\r' := by
  unfold escChar
  by_cases h1 : c = '&'
  · subst h1; simp only [if_pos rfl]; decide
  · by_cases h2 : c = '<'
    · subst h2; simp only [h1, if_false, if_pos rfl]; decide
    · by_cases h3 : c = '"'
      · subst h3; simp only [h1, h2, if_false, if_pos rfl]; decide
      · by_cases h4 : c = '>'
        · subst h4; simp only [h1, h2, h3, if_false, if_pos rfl]; decide
        · simp only [h1, h2, h3, h4, if_false]
          intro x hx
          rw [List.mem_singleton.mp hx]
          exact hc

theorem unesc_eolNorm_esc (l : List Char) :
    unescList (eolNorm (escList l)) = eolNorm l := by
  induction l using eolNorm.induct with
  | case1 => rfl
  | case2 rest ih =>
    show unescList (eolNorm ('\r' :: '\n' :: escList rest)) = _
    rw [eolNorm.eq_2, unescList_cons_of_ne '\n' (by decide), ih, eolNorm.eq_2]
  | case3 rest hno ih =>
    show unescList (eolNorm ('\r' :: escList rest)) = _
    rw [eolNorm.eq_3 _ (escList_not_lf_head hno),
      unescList_cons_of_ne '\n' (by decide), ih, eolNorm.eq_3 _ hno]
  | case4 c rest h1 h2 ih =>
    have hc : c ≠ '\r' := h2
    show unescList (eolNorm (escChar c ++ escList rest)) = _
    rw [eolNorm_append_no_cr _ (escChar_no_cr c hc), unesc_escChar, ih,
      eolNorm.eq_4 c rest (fun _ hcc _ => hc hcc) hc]

theorem eolNorm_of_no_cr {l : List Char} (h : '\r' ∉ l) : eolNorm l = l := by
  induction l with
  | nil => rfl
  | cons c t ih =>
    have hc : c ≠ '\r' := by
      intro hcc
      exact h (hcc ▸ List.mem_cons_self ..)
    rw [eolNorm.eq_4 c t (fun _ hcc _ => hc hcc) hc,
      ih (fun hm => h (List.mem_cons_of_mem _ hm))]

theorem truthy_iff (r : Record) (k : String) :
    r.truthy k = true ↔ ∃ s, r.get? k = some s ∧ s ≠ "" := by
  unfold Record.truthy
  cases hg : r.get? k with
  | none => simp
  | some s =>
    simp only [Bool.not_eq_true']
    constructor
    · intro hne
      exact ⟨s, rfl, by simpa using hne⟩
    · rintro ⟨t, ht, hne⟩
      cases ht
      simpa using hne

theorem findChild_fullAddress (r : Record) :
    findChild (mapCustomer r) "FullAddress" = some (fullAddressElem r) := by
  cases hb : r.truthy "Phone 2" <;>
    · unfold findChild mapCustomer
      rw [hb]
      rfl

theorem validStr_of_get? {r : Record} {k s : String} (hr : recValid r = true)
    (h : r.get? k = some s) : validStr s = true := by
  unfold Record.get? at h
  cases hf : r.fields.find? (fun p => p.1 == k) with
  | none => rw [hf] at h; cases h
  | some p =>
    rw [hf] at h
    simp only [Option.map_some'] at h
    have h2 : p.2 = s := Option.some.inj h
    have hmem : p ∈ r.fields := List.mem_of_find?_eq_some hf
    rw [← h2]
    exact List.all_eq_true.mp hr p hmem

theorem validStr_getD {r : Record} (k d : String)
    (hr : recValid r = true) (hd : validStr d = true) :
    validStr (r.getD k d) = true := by
  unfold Record.getD
  cases hg : r.get? k with
  | none => exact hd
  | some s => exact validStr_of_get? hr hg

theorem validStr_NA : validStr "N/A" = true := rfl

theorem validStr_get_getD {r : Record} (k : String) (hr : recValid r = true) :
    validStr ((r.get? k).getD "") = true := by
  cases hg : r.get? k with
  | none => rfl
  | some s => exact validStr_of_get? hr hg

theorem validStr_append (a b : String) :
    validStr (a ++ b) = (validStr a && validStr b) := by
  unfold validStr
  rw [String.data_append, List.all_append]

theorem validStr_pyJoinSpace (l : List String)
    (h : ∀ s ∈ l, validStr s = true) : validStr (pyJoinSpace l) = true := by
  induction l with
  | nil => rfl
  | cons s rest ih =>
    cases rest with
    | nil => exact h s (List.mem_cons_self s [])
    | cons t r2 =>
      show validStr (s ++ " " ++ pyJoinSpace (t :: r2)) = true
      rw [validStr_append, validStr_append]
      have hs : validStr s = true := h s (List.mem_cons_self ..)
      have hrest : validStr (pyJoinSpace (t :: r2)) = true :=
        ih (fun x hx => h x (List.mem_cons_of_mem _ hx))
      rw [hs, hrest]
      rfl

theorem mem_of_mem_pyStripList {c : Char} {l : List Char}
    (h : c ∈ pyStripList l) : c ∈ l := by
  unfold pyStripList at h
  rw [List.mem_reverse] at h
  have h2 := (List.dropWhile_suffix pySpace).sublist.subset h
  rw [List.mem_reverse] at h2
  exact (List.dropWhile_suffix pySpace).sublist.subset h2

theorem validStr_pyStrip {s : String} (h : validStr s = true) :
    validStr (pyStrip s) = true := by
  unfold validStr pyStrip
  rw [List.all_eq_true]
  intro c hc
  exact List.all_eq_true.mp h c (mem_of_mem_pyStripList hc)

theorem validStr_contactName (r : Record) (hr : recValid r = true) :
    validStr (contactNameStr r) = true := by
  unfold contactNameStr
  refine validStr_pyStrip (validStr_pyJoinSpace _ ?_)
  intro s hs
  have hs2 : s = r.getD "First Name" "" ∨ s = r.getD "Last Name" "" := by
    have hm := List.mem_of_mem_filter hs
    simpa using hm
  rcases hs2 with h | h <;> rw [h]
  · exact validStr_getD "First Name" "" hr rfl
  · exact validStr_getD "Last Name" "" hr rfl

theorem validElem_eq_def (t : String) (a : List (String × String))
    (tx : Option String) (c : List Elem) :
    validElem (Elem.mk t a tx c) =
      (a.all (fun p => validStr p.2) &&
        (match tx with | some s => validStr s | none => true) &&
        validElems c) := rfl

theorem validElems_nil : validElems [] = true := rfl

theorem validElems_cons (e : Elem) (es : List Elem) :
    validElems (e :: es) = (validElem e && validElems es) := rfl

theorem validElems_append (a b : List Elem) :
    validElems (a ++ b) = (validElems a && validElems b) := by
  induction a with
  | nil => rfl
  | cons e es ih =>
    rw [List.cons_append, validElems_cons, validElems_cons, ih, Bool.and_assoc]

theorem validElem_fullAddress (r : Record) (hr : recValid r = true) :
    validElem (fullAddressElem r) = true := by
  have h1 := validStr_getD "City" "N/A" hr validStr_NA
  have h2 := validStr_getD "Country" "N/A" hr validStr_NA
  have h3 : validStr (toString (0 : Nat)) = true := rfl
  simp [fullAddressElem, validElem_eq_def, validElems_cons, validElems_nil,
    h1, h2, h3, validStr_NA]

theorem validElem_mapCustomer (r : Record) (hr : recValid r = true) :
    validElem (mapCustomer r) = true := by
  have hco := validStr_getD "Company" "N/A" hr validStr_NA
  have hph := validStr_getD "Phone 1" "N/A" hr validStr_NA
  have hid := validStr_get_getD "Customer Id" hr
  have hfx := validStr_get_getD "Phone 2" hr
  have hfa := validElem_fullAddress r hr
  have hcn : validStr (if contactNameStr r = "" then "N/A" else contactNameStr r) = true := by
    by_cases hc : contactNameStr r = ""
    · rw [if_pos hc]; exact validStr_NA
    · rw [if_neg hc]; exact validStr_contactName r hr
  cases h1 : r.truthy "Customer Id" <;> cases h2 : r.truthy "Phone 2" <;>
    simp [mapCustomer, h1, h2, validElem_eq_def, validElems_cons, validElems_nil,
      validElems_append, hco, hph, hid, hfx, hfa, hcn, validStr_NA]

theorem validElem_buildRoot (cs : List Record)
    (h : ∀ r ∈ cs, recValid r = true) : validElem (buildRoot cs) = true := by
  unfold buildRoot
  rw [validElem_eq_def]
  have hall : validElems (cs.map mapCustomer) = true := by
    induction cs with
    | nil => rfl
    | cons r rest ih =>
      rw [List.map_cons, validElems_cons,
        validElem_mapCustomer r (h r (List.mem_cons_self ..)),
        ih (fun x hx => h x (List.mem_cons_of_mem _ hx))]
      rfl
  rw [hall]
  rfl

/-! ### Claim theorems -/

/-- C1, counterexample: for the record `{"Company": ""}` — the field present
with an empty value — the `CompanyName` element's text is the empty string,
not the default `"N/A"`; `dict.get(key, "N/A")` applies the default only
when the key is absent, so absent key and empty value are NOT treated
identically. -/
theorem companyName_empty_value_not_defaulted :
    childText (mapCustomer ⟨[("Company", "")]⟩) "CompanyName" = some "" ∧
    childText (mapCustomer ⟨[("Company", "")]⟩) "CompanyName" ≠ some "N/A" := by
  refine ⟨rfl, by decide⟩

/-- C1, amended: for every input record, the text of `CompanyName`, `Phone`,
`City` and `Country` equals the corresponding source field's value
(`"Company"`, `"Phone 1"`, `"City"`, `"Country"`) when the key is present —
even when that value is empty — and the default `"N/A"` exactly when the key
is absent. -/
theorem default_applies_only_when_key_absent (r : Record) :
    childText (mapCustomer r) "CompanyName" = some ((r.get? "Company").getD "N/A") ∧
    childText (mapCustomer r) "Phone" = some ((r.get? "Phone 1").getD "N/A") ∧
    addrText r "City" = some ((r.get? "City").getD "N/A") ∧
    addrText r "Country" = some ((r.get? "Country").getD "N/A") := by
  refine ⟨rfl, rfl, ?_, ?_⟩ <;>
    · unfold addrText
      rw [findChild_fullAddress]
      rfl

/-- C2: for every input record, the `ContactName` text is the `"First Name"`
and `"Last Name"` values joined with a single space, empty parts dropped,
surrounding whitespace stripped, with `"N/A"` when the result is empty; in
particular a record with both fields empty or missing yields `"N/A"`,
`"Maria"`/`"Anders"` yield `"Maria Anders"`, and a First Name that is a
bare no-break space (Unicode whitespace, which `str.strip()` removes)
yields `"N/A"`. -/
theorem contactName_join_trim_default (r : Record) :
    childText (mapCustomer r) "ContactName" =
      some (let s := pyStrip (pyJoinSpace (filterTruthy
              [r.getD "First Name" "", r.getD "Last Name" ""]));
            if s = "" then "N/A" else s) ∧
    ((r.get? "First Name" = none ∨ r.get? "First Name" = some "") →
     (r.get? "Last Name" = none ∨ r.get? "Last Name" = some "") →
     childText (mapCustomer r) "ContactName" = some "N/A") ∧
    childText (mapCustomer ⟨[("First Name", "Maria"), ("Last Name", "Anders")]⟩)
      "ContactName" = some "Maria Anders" ∧
    childText (mapCustomer ⟨[("First Name", "\u00A0")]⟩) "ContactName" = some "N/A" := by
  refine ⟨rfl, ?_, by decide, by decide⟩
  intro h1 h2
  have hf : r.getD "First Name" "" = "" := by
    unfold Record.getD
    rcases h1 with h | h <;> rw [h] <;> rfl
  have hl : r.getD "Last Name" "" = "" := by
    unfold Record.getD
    rcases h2 with h | h <;> rw [h] <;> rfl
  have hc : contactNameStr r = "" := by
    unfold contactNameStr
    rw [hf, hl]
    rfl
  calc childText (mapCustomer r) "ContactName"
      = some (if contactNameStr r = "" then "N/A" else contactNameStr r) := rfl
    _ = some "N/A" := by rw [hc]; rfl

/-- C2, witness: a record with `First Name` present but empty and
`Last Name` absent gets ContactName `"N/A"`. -/
theorem contactName_join_trim_default_witness :
    childText (mapCustomer ⟨[("First Name", "")]⟩) "ContactName" = some "N/A" :=
  (contactName_join_trim_default ⟨[("First Name", "")]⟩).2.1 (Or.inr rfl) (Or.inl rfl)

/-- C3: for every input record, the `Customer` element carries a
`CustomerID` attribute iff the `"Customer Id"` field is present and
non-empty, and has a `Fax` child iff the `"Phone 2"` field is present and
non-empty; otherwise attribute/element are omitted entirely. -/
theorem customerID_attr_and_fax_iff_truthy (r : Record) :
    (hasAttr (mapCustomer r) "CustomerID" = true ↔
      ∃ s, r.get? "Customer Id" = some s ∧ s ≠ "") ∧
    ((findChild (mapCustomer r) "Fax").isSome = true ↔
      ∃ s, r.get? "Phone 2" = some s ∧ s ≠ "") := by
  constructor
  · rw [← truthy_iff]
    cases hb : r.truthy "Customer Id" <;>
      · unfold hasAttr mapCustomer
        rw [hb]
        exact Iff.rfl
  · rw [← truthy_iff]
    cases hb : r.truthy "Phone 2" <;>
      · unfold findChild mapCustomer
        rw [hb]
        exact Iff.rfl

/-- C4: for every input sequence, the root's children are exactly the mapped
records in input order: one `Customer` element per record, count equal to
the input length. -/
theorem customers_count_and_order (cs : List Record) :
    (buildRoot cs).tag = "Customers" ∧
    (buildRoot cs).children = cs.map mapCustomer ∧
    (buildRoot cs).children.length = cs.length ∧
    (buildRoot cs).children.map Elem.tag = List.replicate cs.length "Customer" := by
  refine ⟨rfl, rfl, by simp [buildRoot, Elem.children], ?_⟩
  show (cs.map mapCustomer).map Elem.tag = _
  rw [List.map_map]
  have h : (Elem.tag ∘ mapCustomer) = fun _ => "Customer" := funext fun _ => rfl
  rw [h, List.map_const']

/-- C5: for every input record, `ContactTitle` text is `"N/A"` and the
`FullAddress` subtree has `Address` `"N/A"`, `Region` `"N/A"` and
`PostalCode` the literal `"0"`. -/
theorem placeholder_fields_constant (r : Record) :
    childText (mapCustomer r) "ContactTitle" = some "N/A" ∧
    addrText r "Address" = some "N/A" ∧
    addrText r "Region" = some "N/A" ∧
    addrText r "PostalCode" = some "0" := by
  refine ⟨rfl, ?_, ?_, ?_⟩ <;>
    · unfold addrText
      rw [findChild_fullAddress]
      rfl

/-- C6, counterexample: parse-after-serialize is NOT the identity on all
text content of XML-representable characters. A carriage return is
XML-representable and passes `_write_data` escaping verbatim, but a
conformant parser — including the pipeline's own `minidom.parseString`
step — end-of-line-normalizes it to `\n` (XML 1.0 §2.11): `"a\rb"` reads
back as `"a\nb"`. -/
theorem escape_roundtrip_not_identity_on_cr :
    validStr "a\rb" = true ∧
    unescapeData (escapeData "a\rb") = "a\nb" ∧
    unescapeData (escapeData "a\rb") ≠ "a\rb" := by
  refine ⟨by decide, by decide, by decide⟩

/-- C6, amended: serialization escapes `&`, `<`, `>` and quotes in character
data, and a conformant parser's reading of the serialized text (end-of-line
normalization, then entity decoding) returns exactly the end-of-line
normalization of the source string; on strings containing no carriage
return — in particular `"Widgets & Gadgets <Inc.>"` — the round trip is the
identity. -/
theorem escape_roundtrip_normalizes_eol (s : String) :
    unescapeData (escapeData s) = eolNormStr s ∧
    ('\r' ∉ s.data → unescapeData (escapeData s) = s) ∧
    unescapeData (escapeData "Widgets & Gadgets <Inc.>") = "Widgets & Gadgets <Inc.>" := by
  have h1 : unescapeData (escapeData s) = eolNormStr s := by
    show (⟨unescList (eolNorm (escList s.data))⟩ : String) = ⟨eolNorm s.data⟩
    rw [unesc_eolNorm_esc]
  refine ⟨h1, ?_, by decide⟩
  intro hcr
  rw [h1]
  show (⟨eolNorm s.data⟩ : String) = s
  rw [eolNorm_of_no_cr hcr]

/-- C6, witness: the round trip is the identity on a concrete
carriage-return-free string. -/
theorem escape_roundtrip_normalizes_eol_witness :
    unescapeData (escapeData "Maria Anders") = "Maria Anders" :=
  (escape_roundtrip_normalizes_eol "Maria Anders").2.1 (by decide)

/-- C8: the empty input sequence produces a well-formed document: the XML
declaration followed by an empty `Customers` root element with zero
children, and the fallible pipeline succeeds on it. -/
theorem empty_input_document :
    buildRoot [] = .mk "Customers" [] none [] ∧
    json_to_xml [] = "<?xml version=\"1.0\" ?>\n<Customers/>\n" ∧
    jsonToXmlE [] = .ok "<?xml version=\"1.0\" ?>\n<Customers/>\n" := by
  refine ⟨rfl, by decide, ?_⟩
  show (if validElem (buildRoot []) then _ else _) = _
  rw [if_pos (by decide)]
  exact congrArg Except.ok (by decide)

/-- C7, counterexample: `json_to_xml` does not return normally on every
list of string-to-string mappings: on a record whose `"Company"` value is
the NUL character, `ET.tostring` emits the character verbatim and
`minidom.parseString` raises `ExpatError` inside the mapper. -/
theorem mapper_raises_on_invalid_xml_char :
    jsonToXmlE [⟨[("Company", String.mk [Char.ofNat 0])]⟩] =
      .error "ExpatError: not well-formed (invalid token)" := rfl

/-- C7, amended: for every input sequence of records whose field values
consist of XML-representable characters, `json_to_xml` returns normally (no
exception propagates out of the mapper, every field access degrading to a
default rather than raising); for other inputs the `minidom.parseString`
step raises `ExpatError`. -/
theorem mapper_total_on_xml_valid_records (cs : List Record)
    (h : ∀ r ∈ cs, recValid r = true) :
    jsonToXmlE cs = .ok (json_to_xml cs) := by
  unfold jsonToXmlE
  rw [if_pos]
  show validElem (buildRoot cs) = true
  exact validElem_buildRoot cs h

/-- C7, witness: the mapper pipeline succeeds on a small record with
ordinary characters. -/
theorem mapper_total_on_xml_valid_records_witness :
    jsonToXmlE [⟨[("Company", "Acme & Co"), ("Customer Id", "A1")]⟩] =
      .ok (json_to_xml [⟨[("Company", "Acme & Co"), ("Customer Id", "A1")]⟩]) :=
  mapper_total_on_xml_valid_records _ (by decide)

/-- C9: provided every CSV row has an `Index` field (as `csv.DictReader`
guarantees when the header has one), the driver's row loop returns exactly
the rows whose `Index` parses as an integer, in order and with `Index`
coerced, and warns about exactly the rows whose `Index` fails to parse,
continuing past them. -/
theorem index_parse_skip_semantics (rows : List Record)
    (h : ∀ r ∈ rows, (r.get? "Index").isSome = true) :
    readLoop rows = (.ok (surviving rows), skippedRows rows) := by
  induction rows with
  | nil => rfl
  | cons r rest ih =>
    have hrest := ih (fun x hx => h x (List.mem_cons_of_mem _ hx))
    obtain ⟨s, hs⟩ := Option.isSome_iff_exists.mp (h r (List.mem_cons_self ..))
    cases hp : pyInt s with
    | none =>
      simp [readLoop, hs, hp, hrest, surviving, skippedRows]
    | some n =>
      simp [readLoop, hs, hp, hrest, surviving, skippedRows, Except.map]

/-- C9, witness: parseable-`Index` rows — including a Unicode-digit Index,
which `int()` coerces — survive, and an unparseable one is skipped with a
warning. -/
theorem index_parse_skip_semantics_witness :
    readLoop [⟨[("Index", "1"), ("Company", "A")]⟩, ⟨[("Index", "١٢")]⟩,
        ⟨[("Index", "abc")]⟩] =
      (.ok (surviving [⟨[("Index", "1"), ("Company", "A")]⟩, ⟨[("Index", "١٢")]⟩,
          ⟨[("Index", "abc")]⟩]),
       skippedRows [⟨[("Index", "1"), ("Company", "A")]⟩, ⟨[("Index", "١٢")]⟩,
          ⟨[("Index", "abc")]⟩]) :=
  index_parse_skip_semantics _ (by decide)

/-- C10: when the CSV is read successfully but no rows survive the `Index`
coercion, the driver prints its per-row warnings and the message
`No data processed from CSV.` and returns: no directory is created and no
JSON or XML file is written (every effect is a print). -/
theorem no_output_when_no_rows_survive (rows : List Record) (dirExists : Bool)
    (timestamp csvPath outputDir : String) (ws : List Record)
    (h : readLoop rows = (.ok [], ws)) :
    csv_to_json_and_xml (.rows rows) dirExists timestamp csvPath outputDir =
      ws.map Eff.warnIndex ++ [.printMsg "No data processed from CSV."] ∧
    (csv_to_json_and_xml (.rows rows) dirExists timestamp csvPath
        outputDir).all Eff.isPrint = true := by
  have h1 : csv_to_json_and_xml (.rows rows) dirExists timestamp csvPath outputDir =
      ws.map Eff.warnIndex ++ [.printMsg "No data processed from CSV."] := by
    simp only [csv_to_json_and_xml, h, List.isEmpty_nil, if_true]
  refine ⟨h1, ?_⟩
  rw [h1, List.all_append]
  have h2 : ∀ l : List Record, (l.map Eff.warnIndex).all Eff.isPrint = true := by
    intro l
    induction l with
    | nil => rfl
    | cons x xs ih => simp [Eff.isPrint, ih]
  rw [h2]
  rfl

/-- C10, witness: a run whose single row has an unparseable `Index` warns,
prints the no-data message, and performs no filesystem effect. -/
theorem no_output_when_no_rows_survive_witness :
    csv_to_json_and_xml (.rows [⟨[("Index", "zzz")]⟩]) false "20240101000000"
        "customers.csv" "Examples" =
      [⟨[("Index", "zzz")]⟩].map Eff.warnIndex ++
        [.printMsg "No data processed from CSV."] ∧
    (csv_to_json_and_xml (.rows [⟨[("Index", "zzz")]⟩]) false "20240101000000"
        "customers.csv" "Examples").all Eff.isPrint = true :=
  no_output_when_no_rows_survive [⟨[("Index", "zzz")]⟩] false "20240101000000"
    "customers.csv" "Examples" [⟨[("Index", "zzz")]⟩] rfl
